import Mathlib

/-!
Shallow embedding of the food-delivery invoice extraction logic of this
repository, covering the two text parsers
(`src/gmail_pdfs/extract_food_delivery_data.py`: `extract_order_data`, and
`src/parse_invoices.py`: `extract_invoice_data`) and the batch aggregation
steps (`analyze_data`, the date sort in `__main__`).

Conventions of the embedding:
- PDF text extraction (pdfplumber) is an external collaborator; both parsers
  are modelled from the point where the concatenated page text `text` is in
  hand, so each Lean parser takes the text (and the basename of the source
  file) as input.
- Python strings are modelled as Lean `String` / `List Char`; each `re`
  pattern of the source is hand-compiled to a dedicated matching function
  whose backtracking behaviour is reproduced where it can matter (lazy
  groups, `\s*` before a required class, alternation order).  Character
  classes `\w`, `\s`, `[A-Za-z]` are modelled at their ASCII meaning (the
  invoice texts these patterns target are ASCII plus the rupee sign).
- Python `float` amounts are modelled as exact rationals `ℚ`; every amount
  string produced by the patterns (digits, commas, at most one dot) is
  exactly representable.
- `None` / exception-as-absence is modelled with `Option`; Python truthiness
  of the extracted fields (empty string and `None` are falsy) is modelled
  explicitly by `pyTruthyS` / `pyTruthyQ`.
-/

/-- Python `\s` whitespace class (ASCII part): space, tab, LF, VT, FF, CR. -/
def pyWS (c : Char) : Bool :=
  c = ' ' || c = '\t' || c = '\n' || c = '\r' || c.toNat = 11 || c.toNat = 12

/-- Python `\w` word class at its ASCII meaning: letters, digits, underscore. -/
def pyWord (c : Char) : Bool :=
  c.isAlpha || c.isDigit || c = '_'

/-- Digit-or-comma class `[\d,]` used by the amount groups. -/
def digitComma (c : Char) : Bool :=
  c.isDigit || c = ','

/-- Python `str.strip()` on a character list. -/
def stripChars (l : List Char) : List Char :=
  ((l.dropWhile pyWS).reverse.dropWhile pyWS).reverse

/-- Python `str.strip()`. -/
def pyStrip (s : String) : String :=
  String.mk (stripChars s.data)

/-- Python `str.lower()` (ASCII letters). -/
def pyLower (s : String) : String :=
  String.mk (s.data.map Char.toLower)

/-- Python `str.replace(",", "")` — drop every comma. -/
def removeCommas (l : List Char) : List Char :=
  l.filter (fun c => c ≠ ',')

/-- Python `str.replace(",", "")` on strings. -/
def removeCommasS (s : String) : String :=
  String.mk (removeCommas s.data)

/-- Python `needle in hay` substring test (case sensitive). -/
def containsSub (needle : List Char) : List Char → Bool
  | [] => needle.isPrefixOf []
  | c :: t => needle.isPrefixOf (c :: t) || containsSub needle t

/-- Substring test on strings, Python `needle in hay`. -/
def containsStr (needle hay : String) : Bool :=
  containsSub needle.data hay.data

/-- Python `text.split("\n")` on a character list: every newline separates,
empty pieces are kept, the empty text yields one empty piece. -/
def splitNlChars : List Char → List (List Char)
  | [] => [[]]
  | c :: t =>
    if c = '\n' then [] :: splitNlChars t
    else
      match splitNlChars t with
      | [] => [[c]]
      | h :: r => (c :: h) :: r

/-- Python `text.split("\n")`. -/
def splitNl (s : String) : List String :=
  (splitNlChars s.data).map String.mk

/-- Match a literal (case sensitive): returns the rest of the input after the
literal, or `none`. -/
def dropLit (lit l : List Char) : Option (List Char) :=
  if lit.isPrefixOf l then some (l.drop lit.length) else none

/-- Match a literal case-insensitively (ASCII), as under `re.IGNORECASE`. -/
def dropLitCI : List Char → List Char → Option (List Char)
  | [], l => some l
  | _ :: _, [] => none
  | c :: cs, d :: ds => if c.toLower = d.toLower then dropLitCI cs ds else none

/-- `re.search` position scan: try the anchored matcher at every start
position of the input (leftmost match wins), including the end position. -/
def searchFirst (f : List Char → Option α) : List Char → Option α
  | [] => f []
  | c :: t =>
    match f (c :: t) with
    | some r => some r
    | none => searchFirst f t

/-- Decimal digit run to a natural number. -/
def natOfDigits (l : List Char) : Nat :=
  l.foldl (fun n c => n * 10 + (c.toNat - 48)) 0

/-- Python `float(s)` on the strings the amount groups can produce after
comma removal: digits, optionally one dot followed by digits.  `float` raises
(caught by the callers) when no digit is present at all. -/
def parseFloatQ (l : List Char) : Option ℚ :=
  let ip := l.takeWhile Char.isDigit
  let r := l.drop ip.length
  match r with
  | [] => if ip.isEmpty then none else some (natOfDigits ip)
  | '.' :: fr =>
    if fr.all Char.isDigit then
      if ip.isEmpty && fr.isEmpty then none
      else some ((natOfDigits ip : ℚ) + (natOfDigits fr : ℚ) / (10 ^ fr.length : ℕ))
    else none
  | _ => none

/-- The amount group `([\d,]+\.?\d*)` of the Zomato total/item patterns:
one or more digits/commas, an optional dot, then any digits.  Returns the
captured characters and the rest of the input. -/
def amountGroup (l : List Char) : Option (List Char × List Char) :=
  let ds := l.takeWhile digitComma
  if ds.isEmpty then none
  else
    let r := l.drop ds.length
    match r with
    | '.' :: r2 =>
      let fs := r2.takeWhile Char.isDigit
      some (ds ++ '.' :: fs, r2.drop fs.length)
    | _ => some (ds, r)

/-! ## `extract_order_data` field extraction
(`src/gmail_pdfs/extract_food_delivery_data.py`, lines 33-156) -/

/-- `re.search(r"Order ID:\s*(\d+)", text)` anchored at one position:
the literal, then `\s*`, then the captured digit run (at least one digit). -/
def orderIdAt (l : List Char) : Option String :=
  match dropLit ("Order ID:").data l with
  | none => none
  | some r0 =>
    let r1 := r0.dropWhile pyWS
    let ds := r1.takeWhile Char.isDigit
    if ds.isEmpty then none else some (String.mk ds)

/-- Order-id extraction of `extract_order_data` (line 34). -/
def orderIdSearch (text : String) : Option String :=
  searchFirst orderIdAt text.data

/-- The date regex of `extract_order_data` (line 39),
`Order Time:\s*(\d+\s+\w+\s+\d{4}[,\s]+\d+:\d+\s*(?:AM|PM))`, anchored at one
position.  Every quantified class is followed by a disjoint class, so greedy
matching is deterministic; `\d{4}` followed by `[,\s]+` forces the year digit
run to have length exactly 4.  Returns the captured group. -/
def orderTimeAt (l : List Char) : Option String :=
  match dropLit ("Order Time:").data l with
  | none => none
  | some r0 =>
    let r1 := r0.dropWhile pyWS
    let day := r1.takeWhile Char.isDigit
    if day.isEmpty then none else
    let r2 := r1.drop day.length
    let w1 := r2.takeWhile pyWS
    if w1.isEmpty then none else
    let r3 := r2.drop w1.length
    let mon := r3.takeWhile pyWord
    if mon.isEmpty then none else
    let r4 := r3.drop mon.length
    let w2 := r4.takeWhile pyWS
    if w2.isEmpty then none else
    let r5 := r4.drop w2.length
    let yr := r5.takeWhile Char.isDigit
    if yr.length ≠ 4 then none else
    let r6 := r5.drop 4
    let sep := r6.takeWhile (fun c => c = ',' || pyWS c)
    if sep.isEmpty then none else
    let r7 := r6.drop sep.length
    let hh := r7.takeWhile Char.isDigit
    if hh.isEmpty then none else
    match r7.drop hh.length with
    | ':' :: r8 =>
      let mm := r8.takeWhile Char.isDigit
      if mm.isEmpty then none else
      let r9 := (r8.drop mm.length).dropWhile pyWS
      match (match dropLit ("AM").data r9 with
             | some r => some r
             | none => dropLit ("PM").data r9) with
      | none => none
      | some rest => some (String.mk (r1.take (r1.length - rest.length)))
    | _ => none

/-- `re.search` of the order-time regex over the whole text. -/
def orderTimeSearch (text : String) : Option String :=
  searchFirst orderTimeAt text.data

/-- Full month names with their numbers, as matched by `strptime` `%B`
(case-insensitive). -/
def monthsFull : List (String × Nat) :=
  [("january", 1), ("february", 2), ("march", 3), ("april", 4), ("may", 5),
   ("june", 6), ("july", 7), ("august", 8), ("september", 9), ("october", 10),
   ("november", 11), ("december", 12)]

/-- Abbreviated month names, as matched by `strptime` `%b`. -/
def monthsAbbr : List (String × Nat) :=
  [("jan", 1), ("feb", 2), ("mar", 3), ("apr", 4), ("may", 5), ("jun", 6),
   ("jul", 7), ("aug", 8), ("sep", 9), ("oct", 10), ("nov", 11), ("dec", 12)]

/-- Gregorian leap year, as in `datetime`. -/
def isLeap (y : Nat) : Bool :=
  y % 4 = 0 && (y % 100 ≠ 0 || y % 400 = 0)

/-- Days in a month, as validated by the `datetime` constructor. -/
def daysInMonth (y m : Nat) : Nat :=
  if m = 2 then (if isLeap y then 29 else 28)
  else if m = 4 || m = 6 || m = 9 || m = 11 then 30
  else 31

/-- `datetime.strptime(s, "%d <month> %Y %I:%M %p")` where `<month>` is `%B`
(full names) or `%b` (abbreviated names), returning `(year, month, day)` on
success.  Models CPython `_strptime`: `%d` is 1-2 digits with value 1-31,
each format blank is `\s+`, the month name is matched case-insensitively and
must be followed by whitespace, `%Y` is exactly 4 digits, `%I` is 1-2 digits
with value 1-12, `%M` is 1-2 digits with value 0-59, `%p` is AM/PM
case-insensitively, the whole string must be consumed, and the resulting
`datetime(year, month, day, ...)` must be constructible (year at least 1,
day within the month). -/
def strptimeDate (months : List (String × Nat)) (s : String) : Option (Nat × Nat × Nat) :=
  let l := s.data
  let dRun := l.takeWhile Char.isDigit
  if dRun.isEmpty || dRun.length > 2 then none else
  let d := natOfDigits dRun
  if d = 0 || d > 31 then none else
  let r1 := l.drop dRun.length
  let w1 := r1.takeWhile pyWS
  if w1.isEmpty then none else
  let r2 := r1.drop w1.length
  let mRun := r2.takeWhile Char.isAlpha
  match months.find? (fun p => p.1 = String.mk (mRun.map Char.toLower)) with
  | none => none
  | some (_, m) =>
    let r3 := r2.drop mRun.length
    let w2 := r3.takeWhile pyWS
    if w2.isEmpty then none else
    let r4 := r3.drop w2.length
    let yRun := r4.takeWhile Char.isDigit
    if yRun.length ≠ 4 then none else
    let y := natOfDigits yRun
    let r5 := r4.drop 4
    let w3 := r5.takeWhile pyWS
    if w3.isEmpty then none else
    let r6 := r5.drop w3.length
    let hRun := r6.takeWhile Char.isDigit
    if hRun.isEmpty || hRun.length > 2 then none else
    let h := natOfDigits hRun
    if h = 0 || h > 12 then none else
    match r6.drop hRun.length with
    | ':' :: r7 =>
      let mRun2 := r7.takeWhile Char.isDigit
      if mRun2.isEmpty || mRun2.length > 2 then none else
      if natOfDigits mRun2 > 59 then none else
      let r8 := r7.drop mRun2.length
      let w4 := r8.takeWhile pyWS
      if w4.isEmpty then none else
      let r9 := r8.drop w4.length
      match (match dropLitCI ("am").data r9 with
             | some r => some r
             | none => dropLitCI ("pm").data r9) with
      | some [] =>
        if y = 0 then none
        else if d > daysInMonth y m then none
        else some (y, m, d)
      | _ => none
    | _ => none

/-- Zero-padded decimal rendering to (at least) `w` digits, as in
`strftime` field output. -/
def padNum (w n : Nat) : String :=
  let s := toString n
  if s.length < w then String.mk (List.replicate (w - s.length) '0') ++ s else s

/-- `datetime.strftime("%Y-%m-%d")`. -/
def fmtDate (y m d : Nat) : String :=
  padNum 4 y ++ "-" ++ padNum 2 m ++ "-" ++ padNum 2 d

/-- Date normalization of `extract_order_data` (lines 41-51): drop the
commas, try `strptime` with the full month name, then with the abbreviated
month name, and fall back to the raw matched string verbatim. -/
def normalizeOrderDate (raw : String) : String :=
  let c := removeCommasS raw
  match strptimeDate monthsFull c with
  | some (y, m, d) => fmtDate y m d
  | none =>
    match strptimeDate monthsAbbr c with
    | some (y, m, d) => fmtDate y m d
    | none => raw

/-- Date extraction of `extract_order_data` (lines 38-51). -/
def orderDateField (text : String) : Option String :=
  (orderTimeSearch text).map normalizeOrderDate

/-- Backtracking step shared by the `<skip>([^\n]+)` patterns: the greedy
skip part first consumes `j` characters (at most its maximal run), then gives
characters back one at a time until the captured `[^\n]+` group is nonempty.
`lo` is the minimal number of characters the skip part must keep (`0` for
`\s*`, `1` for `[:\s]+`). -/
def capLineBack (r0 : List Char) (lo : Nat) : Nat → Option (List Char)
  | 0 =>
    if lo > 0 then none
    else
      let g := r0.takeWhile (fun c => c ≠ '\n')
      if g.isEmpty then none else some g
  | j + 1 =>
    if j + 1 < lo then none
    else
      let g := (r0.drop (j + 1)).takeWhile (fun c => c ≠ '\n')
      if g.isEmpty then capLineBack r0 lo j else some g

/-- `re.search(r"Restaurant Name:\s*([^\n]+)", text)` anchored at one
position; the captured group, `.strip()` not yet applied. -/
def orderRestAt (l : List Char) : Option String :=
  match dropLit ("Restaurant Name:").data l with
  | none => none
  | some r0 =>
    (capLineBack r0 0 (r0.takeWhile pyWS).length).map String.mk

/-- Restaurant-name extraction of `extract_order_data` (lines 54-56):
first match of the pattern, with `.strip()` applied to the group. -/
def orderRestField (text : String) : Option String :=
  (searchFirst orderRestAt text.data).map pyStrip

/-! ## `extract_order_data` item scan (lines 58-107) -/

/-- Start-of-items detection (line 66): the line contains `Item`, `Quantity`
and `Price` (case sensitive). -/
def lineStartsItems (line : String) : Bool :=
  containsStr ("Item") line && containsStr ("Quantity") line &&
    containsStr ("Price") line

/-- Table-header skip (line 73): `total price` in the lowercased line
together with `quantity` or `unit`. -/
def isHeaderSkip (line : String) : Bool :=
  containsStr ("total price") (pyLower line) &&
    (containsStr ("quantity") (pyLower line) || containsStr ("unit") (pyLower line))

/-- Charges-section trailer (line 75): any of the keywords in the
lowercased line. -/
def isTrailerCharges (line : String) : Bool :=
  [("taxes" : String), "packaging", "delivery", "platform", "round off"].any
    (fun kw => containsStr kw (pyLower line))

/-- Terms/conditions trailer (line 78). -/
def isTrailerTerms (line : String) : Bool :=
  containsStr ("terms") (pyLower line) || containsStr ("conditions") (pyLower line)

/-- The part of the item regex after the lazy name group:
`\s+(\d+)\s+₹\s*([\d,]+\.?\d*)\s+₹\s*([\d,]+\.?\d*)` — whitespace, the
quantity digits, whitespace, the rupee sign, then the two amount groups.
Returns `(quantity, unit price, line total)` as raw captured strings. -/
def itemTail (l : List Char) : Option (String × String × String) :=
  let w1 := l.takeWhile pyWS
  if w1.isEmpty then none else
  let r1 := l.drop w1.length
  let q := r1.takeWhile Char.isDigit
  if q.isEmpty then none else
  let r2 := r1.drop q.length
  let w2 := r2.takeWhile pyWS
  if w2.isEmpty then none else
  match r2.drop w2.length with
  | '₹' :: r3 =>
    match amountGroup (r3.dropWhile pyWS) with
    | none => none
    | some (g3, r4) =>
      let w3 := r4.takeWhile pyWS
      if w3.isEmpty then none else
      match r4.drop w3.length with
      | '₹' :: r5 =>
        match amountGroup (r5.dropWhile pyWS) with
        | none => none
        | some (g4, _) => some (String.mk q, String.mk g3, String.mk g4)
      | _ => none
  | _ => none

/-- Lazy name loop for the item regex (line 85)
`^([^₹]+?)\s+(\d+)\s+₹\s*([\d,]+\.?\d*)\s+₹\s*([\d,]+\.?\d*)`:
grow the name (which must not contain the rupee sign) one character at a
time, trying the rest of the pattern at each split first (lazy `+?`).
`acc` is the reversed name captured so far (nonempty on every call). -/
def itemNameLoop (acc : List Char) : List Char → Option (String × String × String × String)
  | [] => none
  | c :: t =>
    match itemTail (c :: t) with
    | some (q, g3, g4) => some (String.mk acc.reverse, q, g3, g4)
    | none =>
      if c = '₹' then none
      else itemNameLoop (c :: acc) t

/-- `re.match` of the item regex against a line of `extract_order_data`;
returns the raw groups `(name, quantity, unit price, line total)`. -/
def itemMatchO (line : String) : Option (String × String × String × String) :=
  match line.data with
  | [] => none
  | c :: t => if c = '₹' then none else itemNameLoop [c] t

/-- The appended item string (line 91):
`f"{item_name} (Qty: {quantity}, ₹{total_price})"` with the name stripped
and the commas removed from the line total. -/
def fmtItemO (name q tot : String) : String :=
  pyStrip name ++ " (Qty: " ++ q ++ ", ₹" ++ removeCommasS tot ++ ")"

/-- State of the items-section loop (lines 61-91). -/
structure ScanState where
  itemsSection : Bool
  items : List String
deriving DecidableEq, Repr

/-- One iteration of the items loop of `extract_order_data`
(lines 64-91), in source order: start detection, header skip, the two
trailer checks, then the item match on a nonblank line. -/
def scanStep (st : ScanState) (line : String) : ScanState :=
  if lineStartsItems line then { st with itemsSection := true }
  else if st.itemsSection then
    if isHeaderSkip line then st
    else if isTrailerCharges line then { st with itemsSection := false }
    else if isTrailerTerms line then { st with itemsSection := false }
    else if pyStrip line ≠ "" then
      match itemMatchO line with
      | some (n, q, _, t) => { st with items := st.items ++ [fmtItemO n q t] }
      | none => st
    else st
  else st

/-- The structured item scan over all lines (lines 60-91). -/
def itemsScan (lines : List String) : List String :=
  (lines.foldl scanStep ⟨false, []⟩).items

/-- Keyword filter of the fallback item extraction (line 97). -/
def fallbackExcluded (line : String) : Bool :=
  [("tax" : String), "delivery", "platform", "packaging", "total", "free"].any
    (fun kw => containsStr kw (pyLower line))

/-- `re.search(r"₹\s*([\d,]+\.?\d*)", line)` anchored at one position. -/
def rupeeAmountAt (l : List Char) : Option String :=
  match l with
  | '₹' :: r => (amountGroup (r.dropWhile pyWS)).map (fun p => String.mk p.1)
  | _ => none

/-- One line of the fallback item extraction (lines 96-105): the line must
contain the rupee sign and none of the excluded keywords; the text before
the first rupee sign, stripped, is the name, kept only when longer than 3
characters and a priced amount follows some rupee sign. -/
def fallbackItemLine (line : String) : Option String :=
  if containsStr ("₹") line && !fallbackExcluded line then
    let name := pyStrip (String.mk (line.data.takeWhile (fun c => c ≠ '₹')))
    if name.length > 3 then
      match searchFirst rupeeAmountAt line.data with
      | some g => some (name ++ " (₹" ++ g ++ ")")
      | none => none
    else none
  else none

/-- The fallback item extraction over all lines (lines 94-105). -/
def fallbackItems (lines : List String) : List String :=
  lines.filterMap fallbackItemLine

/-! ## `extract_order_data` total extraction (lines 109-150) -/

/-- `re.match` of `^Total\s+₹\s*([\d,]+\.?\d*)` (IGNORECASE) at the start of
a line. -/
def totalPat1 (l : List Char) : Option (List Char) :=
  match dropLitCI ("Total").data l with
  | none => none
  | some r0 =>
    let w := r0.takeWhile pyWS
    if w.isEmpty then none else
    match r0.drop w.length with
    | '₹' :: r1 => (amountGroup (r1.dropWhile pyWS)).map Prod.fst
    | _ => none

/-- `re.match` of `^Total\s*:\s*₹\s*([\d,]+\.?\d*)` (IGNORECASE) at the
start of a line. -/
def totalPat2 (l : List Char) : Option (List Char) :=
  match dropLitCI ("Total").data l with
  | none => none
  | some r0 =>
    match r0.dropWhile pyWS with
    | ':' :: r1 =>
      match r1.dropWhile pyWS with
      | '₹' :: r2 => (amountGroup (r2.dropWhile pyWS)).map Prod.fst
      | _ => none
    | _ => none

/-- `re.match` of `^Total\s*₹\s*([\d,]+\.?\d*)` (IGNORECASE) at the start of
a line. -/
def totalPat3 (l : List Char) : Option (List Char) :=
  match dropLitCI ("Total").data l with
  | none => none
  | some r0 =>
    match r0.dropWhile pyWS with
    | '₹' :: r1 => (amountGroup (r1.dropWhile pyWS)).map Prod.fst
    | _ => none

/-- Acceptance step shared by all total matches (lines 126-134): remove the
commas from the group, parse it as a float, and keep the value only when it
is strictly greater than 20; a parse failure or a small value falls through
to the next pattern. -/
def acceptTotal (g : Option (List Char)) : Option ℚ :=
  match g with
  | none => none
  | some gr =>
    match parseFloatQ (removeCommas gr) with
    | none => none
    | some v => if 20 < v then some v else none

/-- The per-line total extraction (lines 118-136): strip the line, skip it
when blank, and try the three patterns in order, each accepted only above
the plausibility threshold. -/
def lineTotal (line : String) : Option ℚ :=
  let lc := (pyStrip line).data
  if lc.isEmpty then none
  else
    match acceptTotal (totalPat1 lc) with
    | some v => some v
    | none =>
      match acceptTotal (totalPat2 lc) with
      | some v => some v
      | none => acceptTotal (totalPat3 lc)

/-- The bottom-to-top scan for the final total (lines 117-136): the lines in
reverse order, first line whose total is accepted wins. -/
def findTotalLines (lines : List String) : Option ℚ :=
  lines.reverse.findSome? lineTotal

/-- A `re.MULTILINE` search of a line-anchored pattern: try the pattern at
the start of the text and right after every newline, leftmost match first.
`bol` says whether the current position is at the beginning of a line. -/
def searchML (f : List Char → Option α) : Bool → List Char → Option α
  | bol, [] => if bol then f [] else none
  | bol, c :: t =>
    match (if bol then f (c :: t) else none) with
    | some r => some r
    | none => searchML f (c = '\n') t

/-- The broader fallback total search (lines 139-150): for each pattern in
order, the first `re.MULTILINE` match anywhere in the text, accepted only
above the threshold; an unacceptable first match moves on to the next
pattern (`re.search` yields only the first match of a pattern). -/
def broadTotal (text : String) : Option ℚ :=
  match acceptTotal (searchML totalPat1 true text.data) with
  | some v => some v
  | none =>
    match acceptTotal (searchML totalPat2 true text.data) with
    | some v => some v
    | none => acceptTotal (searchML totalPat3 true text.data)

/-- The total extraction of `extract_order_data`: the bottom-up line scan,
then the broader search if nothing was accepted. -/
def orderTotalField (text : String) : Option ℚ :=
  match findTotalLines (splitNl text) with
  | some v => some v
  | none => broadTotal text

/-! ## `extract_order_data` assembly (lines 13-156) -/

/-- The record built by `extract_order_data` (lines 24-31). -/
structure OrderData where
  order_id : Option String
  date : Option String
  restaurant_name : Option String
  items : List String
  total : Option ℚ
  file_name : String
deriving DecidableEq, Repr

/-- Python truthiness of an optional string field: `None` and `""` are
falsy. -/
def pyTruthyS : Option String → Bool
  | none => false
  | some s => s ≠ ""

/-- Python truthiness of an optional float field: `None` and `0.0` are
falsy. -/
def pyTruthyQ : Option ℚ → Bool
  | none => false
  | some v => v ≠ 0

/-- The completeness gate of `extract_order_data` (lines 152-156): the
record is returned only when date, restaurant name and total are all
truthy. -/
def mkOrderRecord (fname : String) (oid dt rn : Option String)
    (items : List String) (tot : Option ℚ) : Option OrderData :=
  if pyTruthyS dt && pyTruthyS rn && pyTruthyQ tot then
    some ⟨oid, dt, rn, items, tot, fname⟩
  else none

/-- The items field of `extract_order_data` (lines 58-107): the structured
table scan, then the fallback extraction if it found nothing. -/
def orderItemsField (lines : List String) : List String :=
  let tableItems := itemsScan lines
  if tableItems.isEmpty then fallbackItems lines else tableItems

/-- `extract_order_data` (lines 13-156), from the extracted text and the
basename of the source file: `None` on empty text, otherwise the extracted
fields behind the completeness gate. -/
def extract_order_data (text fname : String) : Option OrderData :=
  if text = "" then none
  else
    mkOrderRecord fname (orderIdSearch text) (orderDateField text)
      (orderRestField text) (orderItemsField (splitNl text))
      (orderTotalField text)

/-! ## `extract_invoice_data` (`src/parse_invoices.py`, lines 32-120) -/

/-- The month-prefix alternation `(?:Jan|Feb|...|Dec)` of the invoice date
patterns, case-insensitive; returns the rest after the matched prefix. -/
def monthAbbrAlt (l : List Char) : Option (List Char) :=
  [("Jan" : String), "Feb", "Mar", "Apr", "May", "Jun", "Jul", "Aug",
   "Sep", "Oct", "Nov", "Dec"].findSome? (fun m => dropLitCI m.data l)

/-- The long-form date body `\d{1,2}\s+(?:Jan|...|Dec)[a-z]*\s+\d{4}` of the
invoice date patterns, anchored at one position (IGNORECASE): 1-2 day
digits, whitespace, a month prefix with trailing letters, whitespace, then
4 year digits (a run of 3 or more day digits can never match, and a run of
more than 4 year digits keeps only its first 4 — nothing follows the group).
Returns the captured characters. -/
def invLongDateAt (l : List Char) : Option (List Char) :=
  let day := l.takeWhile Char.isDigit
  if day.isEmpty || day.length > 2 then none else
  let r1 := l.drop day.length
  let w1 := r1.takeWhile pyWS
  if w1.isEmpty then none else
  let r2 := r1.drop w1.length
  match monthAbbrAlt r2 with
  | none => none
  | some _ =>
    let mon := r2.takeWhile Char.isAlpha
    let r3 := r2.drop mon.length
    let w2 := r3.takeWhile pyWS
    if w2.isEmpty then none else
    let r4 := r3.drop w2.length
    let yr := r4.takeWhile Char.isDigit
    if yr.length < 4 then none
    else some (day ++ w1 ++ mon ++ w2 ++ yr.take 4)

/-- Invoice date pattern 1 (line 50): `Order Time:\s*` then the long-form
date body, IGNORECASE, anchored at one position. -/
def invDate1At (l : List Char) : Option (List Char) :=
  match dropLitCI ("Order Time:").data l with
  | none => none
  | some r0 => invLongDateAt (r0.dropWhile pyWS)

/-- Invoice date pattern 3 (line 52): 1-2 digits, a slash or hyphen, 1-2
digits, a slash or hyphen, then 4 digits; anchored at one position. -/
def invDate3At (l : List Char) : Option (List Char) :=
  let d1 := l.takeWhile Char.isDigit
  if d1.isEmpty || d1.length > 2 then none else
  match l.drop d1.length with
  | s1 :: r1 =>
    if s1 = '/' || s1 = '-' then
      let d2 := r1.takeWhile Char.isDigit
      if d2.isEmpty || d2.length > 2 then none else
      match r1.drop d2.length with
      | s2 :: r2 =>
        if s2 = '/' || s2 = '-' then
          let d3 := r2.takeWhile Char.isDigit
          if d3.length < 4 then none
          else some (d1 ++ s1 :: d2 ++ s2 :: d3.take 4)
        else none
      | [] => none
    else none
  | [] => none

/-- Date extraction of `extract_invoice_data` (lines 48-58): the three
patterns in order, first pattern that matches anywhere wins, the group
stripped; the empty-string default stands when nothing matches. -/
def invDateField (text : String) : String :=
  match searchFirst invDate1At text.data with
  | some g => pyStrip (String.mk g)
  | none =>
    match searchFirst invLongDateAt text.data with
    | some g => pyStrip (String.mk g)
    | none =>
      match searchFirst invDate3At text.data with
      | some g => pyStrip (String.mk g)
      | none => ""

/-- `re.sub(r"\s*\(.*?\)\s*", "", s)` match at one position: leading
whitespace, an opening parenthesis, the shortest run of non-newline
characters up to a closing parenthesis, then trailing whitespace.  Returns
the rest of the input after the removed match. -/
def parenMatchAt (l : List Char) : Option (List Char) :=
  let w := l.takeWhile pyWS
  match l.drop w.length with
  | '(' :: r =>
    let inner := r.takeWhile (fun c => c ≠ ')' && c ≠ '\n')
    match r.drop inner.length with
    | ')' :: r2 => some (r2.dropWhile pyWS)
    | _ => none
  | _ => none

/-- Fuelled left-to-right scan of `re.sub`: delete every non-overlapping
match, keep other characters (each step consumes at least one character, so
the length of the list is enough fuel). -/
def subParensGo : Nat → List Char → List Char
  | 0, l => l
  | _ + 1, [] => []
  | f + 1, c :: t =>
    match parenMatchAt (c :: t) with
    | some rest => subParensGo f rest
    | none => c :: subParensGo f t

/-- `re.sub(r"\s*\(.*?\)\s*", "", s)` (line 70). -/
def subParens (s : String) : String :=
  String.mk (subParensGo s.data.length s.data)

/-- The three restaurant patterns of `extract_invoice_data` (lines 61-65),
each anchored at one position (IGNORECASE), returning the raw `([^\n]+)`
group.  `capLineBack` reproduces the backtracking of the greedy skip part
(`\s*` after the colon of pattern 1, `[:\s]+` of patterns 2 and 3). -/
def invRest1At (l : List Char) : Option String :=
  match dropLitCI ("Restaurant Name:").data l with
  | none => none
  | some r0 => (capLineBack r0 0 (r0.takeWhile pyWS).length).map String.mk

/-- Invoice restaurant pattern 2: `Ordered from[:\s]+([^\n]+)`. -/
def invRest2At (l : List Char) : Option String :=
  match dropLitCI ("Ordered from").data l with
  | none => none
  | some r0 =>
    (capLineBack r0 1 (r0.takeWhile (fun c => c = ':' || pyWS c)).length).map String.mk

/-- Invoice restaurant pattern 3: `Delivery from[:\s]+([^\n]+)`. -/
def invRest3At (l : List Char) : Option String :=
  match dropLitCI ("Delivery from").data l with
  | none => none
  | some r0 =>
    (capLineBack r0 1 (r0.takeWhile (fun c => c = ':' || pyWS c)).length).map String.mk

/-- Restaurant extraction of `extract_invoice_data` (lines 60-72): first
pattern that matches anywhere wins; the group is stripped, every
parenthetical (with surrounding whitespace) is removed, and the result is
truncated to 100 characters. -/
def invRestField (text : String) : String :=
  match (match searchFirst invRest1At text.data with
         | some g => some g
         | none =>
           match searchFirst invRest2At text.data with
           | some g => some g
           | none => searchFirst invRest3At text.data) with
  | some g => String.mk ((subParens (pyStrip g)).data.take 100)
  | none => ""

/-- The invoice amount group `([\d,]+\.?\d{0,2})`: one or more
digits/commas, an optional dot, then at most two digits. -/
def invAmountGroup (l : List Char) : Option (List Char) :=
  let ds := l.takeWhile digitComma
  if ds.isEmpty then none
  else
    match l.drop ds.length with
    | '.' :: r2 => some (ds ++ '.' :: (r2.takeWhile Char.isDigit).take 2)
    | _ => some ds

/-- The tail `Total\s+₹?([\d,]+\.?\d{0,2})` of invoice total pattern 1
(IGNORECASE), after the `(?:^|\n)\s*` part has been consumed. -/
def invTotal1Tail (l : List Char) : Option (List Char) :=
  match dropLitCI ("Total").data l with
  | none => none
  | some r0 =>
    let w := r0.takeWhile pyWS
    if w.isEmpty then none else
    match r0.drop w.length with
    | '₹' :: r1 => invAmountGroup r1
    | r1 => invAmountGroup r1

/-- Invoice total pattern 1 (line 78),
`(?:^|\n)\s*Total\s+₹?([\d,]+\.?\d{0,2})` under MULTILINE: at one position,
the `^` alternative applies when the position begins a line, the `\n`
alternative consumes a newline; then `\s*` (which may cross lines) and the
tail. -/
def invTot1At (bol : Bool) (l : List Char) : Option (List Char) :=
  match (if bol then invTotal1Tail (l.dropWhile pyWS) else none) with
  | some g => some g
  | none =>
    match l with
    | '\n' :: r => invTotal1Tail (r.dropWhile pyWS)
    | _ => none

/-- Leftmost-position scan for invoice total pattern 1, tracking whether the
position begins a line. -/
def invTot1Search : Bool → List Char → Option (List Char)
  | bol, [] => invTot1At bol []
  | bol, c :: t =>
    match invTot1At bol (c :: t) with
    | some g => some g
    | none => invTot1Search (c = '\n') t

/-- Invoice total pattern 2 (line 80), `Total:\s*₹?([\d,]+\.?\d{0,2})`
(IGNORECASE), anchored at one position. -/
def invTot2At (l : List Char) : Option (List Char) :=
  match dropLitCI ("Total:").data l with
  | none => none
  | some r0 =>
    match r0.dropWhile pyWS with
    | '₹' :: r1 => invAmountGroup r1
    | r1 => invAmountGroup r1

/-- Amount extraction of `extract_invoice_data` (lines 74-89): the two
patterns in order, first match anywhere in the text wins (no bottom-up scan
and no plausibility threshold); the commas are removed and a rupee sign is
prefixed.  The empty-string default stands when nothing matches. -/
def invAmountField (text : String) : String :=
  match invTot1Search true text.data with
  | some g => "₹" ++ removeCommasS (String.mk g)
  | none =>
    match searchFirst invTot2At text.data with
    | some g => "₹" ++ removeCommasS (String.mk g)
    | none => ""

/-- The tail `\s+(\d+)\s+₹([\d,]+)\s+₹([\d,]+)` of the invoice item pattern
(no dots in these amount groups, no whitespace after the rupee signs). -/
def invItemTail (l : List Char) : Option (String × String × String) :=
  let w1 := l.takeWhile pyWS
  if w1.isEmpty then none else
  let r1 := l.drop w1.length
  let q := r1.takeWhile Char.isDigit
  if q.isEmpty then none else
  let r2 := r1.drop q.length
  let w2 := r2.takeWhile pyWS
  if w2.isEmpty then none else
  match r2.drop w2.length with
  | '₹' :: r3 =>
    let g3 := r3.takeWhile digitComma
    if g3.isEmpty then none else
    let r4 := r3.drop g3.length
    let w3 := r4.takeWhile pyWS
    if w3.isEmpty then none else
    match r4.drop w3.length with
    | '₹' :: r5 =>
      let g4 := r5.takeWhile digitComma
      if g4.isEmpty then none else some (String.mk q, String.mk g3, String.mk g4)
    | _ => none
  | _ => none

/-- Lazy name loop of the invoice item pattern
`^([A-Z][^\n\d]+?)\s+(\d+)\s+₹([\d,]+)\s+₹([\d,]+)` (IGNORECASE, line 94):
the name starts with a letter and continues with at least one more
non-newline non-digit character, extended lazily. -/
def invItemNameLoop (acc : List Char) : List Char → Option (String × String × String × String)
  | [] => none
  | c :: t =>
    if c = '\n' || c.isDigit then none
    else
      match invItemTail t with
      | some (q, g3, g4) => some (String.mk (c :: acc).reverse, q, g3, g4)
      | none => invItemNameLoop (c :: acc) t

/-- `re.match` of the invoice item pattern against a stripped line. -/
def itemMatchI (line : String) : Option (String × String × String × String) :=
  match (pyStrip line).data with
  | [] => none
  | c :: t => if c.isAlpha then invItemNameLoop [c] t else none

/-- One line of the invoice item extraction (lines 99-112): on a pattern
match, keep the item when the stripped name is longer than 3 characters and
is none of `Taxes`, `Total`, `Item`; the appended string is
`f"{qty}x {item_name} (₹{price})"` with the commas removed from the line
total. -/
def invItemLine (line : String) : Option String :=
  match itemMatchI line with
  | none => none
  | some (n, q, _, g4) =>
    let name := pyStrip n
    if name.length > 3 && name ≠ "Taxes" && name ≠ "Total" && name ≠ "Item" then
      some (q ++ "x " ++ name ++ " (₹" ++ removeCommasS g4 ++ ")")
    else none

/-- The record built by `extract_invoice_data` (lines 40-46), with
empty-string defaults for every scalar field. -/
structure InvoiceData where
  filename : String
  date : String
  restaurant : String
  amount : String
  items : List String
deriving DecidableEq, Repr

/-- `extract_invoice_data` (lines 32-120), from the extracted text and the
basename of the source file.  The `except` branch of the source is reachable
only through pdfplumber I/O failures, which sit outside this embedding, so
the function always returns the record — with placeholder defaults for the
fields whose patterns did not match — and keeps at most the first 10 items
(line 114). -/
def extract_invoice_data (text fname : String) : InvoiceData :=
  { filename := fname
    date := invDateField text
    restaurant := invRestField text
    amount := invAmountField text
    items := ((splitNl text).filterMap invItemLine).take 10 }

/-! ## Batch aggregation
(`src/gmail_pdfs/extract_food_delivery_data.py`, lines 212-232 and 293-295) -/

/-- The sort key of `all_data.sort(key=lambda x: x["date"] or "")`
(line 295): the date string, with the empty string standing in for an
absent date. -/
def dateKey (r : OrderData) : String :=
  match r.date with
  | none => ""
  | some s => s

/-- Python string comparison: lexicographic by code point. -/
def lexLe : List Char → List Char → Bool
  | [], _ => true
  | _ :: _, [] => false
  | a :: as, b :: bs =>
    if a.toNat < b.toNat then true
    else if b.toNat < a.toNat then false
    else lexLe as bs

/-- Key comparison used by the date sort. -/
def dateKeyLe (a b : OrderData) : Bool :=
  lexLe (dateKey a).data (dateKey b).data

/-- Stable insertion into a list sorted by `dateKeyLe`: the new record goes
after every record whose key is less than or equal to its own, as a stable
sort places it. -/
def insByDate (x : OrderData) : List OrderData → List OrderData
  | [] => [x]
  | y :: ys => if dateKeyLe y x then y :: insByDate x ys else x :: y :: ys

/-- The date sort of `__main__` (line 295), modelled as a stable insertion
sort on the `dateKey` of each record (Python `list.sort` is a stable sort
on the same keys). -/
def sortByDate (l : List OrderData) : List OrderData :=
  l.foldl (fun acc x => insByDate x acc) []

/-- The summary figures printed by `analyze_data` (lines 222-232). -/
structure Summary where
  total_spending : ℚ
  num_orders : ℕ
  avg_order : ℚ
deriving DecidableEq, Repr

/-- `avg_order = total_spending / num_orders if num_orders > 0 else 0`
(line 231). -/
def avgOrderValue (total : ℚ) (numOrders : ℕ) : ℚ :=
  if numOrders > 0 then total / numOrders else 0

/-- `analyze_data` (lines 212-232), restricted to the summary figures: the
empty batch returns early (`if not data: return`), otherwise the total
spend is the sum of the records' totals, the order count their number, and
the average the guarded quotient. -/
def analyze_data (totals : List ℚ) : Option Summary :=
  if totals.isEmpty then none
  else some ⟨totals.sum, totals.length, avgOrderValue totals.sum totals.length⟩

/-! ## Concrete example inputs
Invoice texts, lines and records used by the concrete theorems below; each
mirrors the document shapes the patterns target. -/

set_option maxRecDepth 40000

def exFname : String := "order1.pdf"

def exOrderText : String :=
  "Order ID: 123\nOrder Time: 31 January 2026, 12:52 PM\nRestaurant Name: Spice Hub\nItem Quantity Unit Price Total Price\nPaneer Tikka 2 ₹250 ₹500\nDelivery Charge ₹30\nTotal ₹530\n"

def exOrderRec : OrderData :=
  ⟨some ("123"), some ("2026-01-31"), some ("Spice Hub"),
    [("Paneer Tikka (Qty: 2, ₹500)")], some 530, exFname⟩

def noPatternText : String := "hello"

def exFname4 : String := "order2.pdf"

def exOrderText2 : String :=
  "Order Time: 2 Feb 2026, 9:05 AM
Restaurant Name: Wok Works
Total ₹321
"

def exOrderRec2 : OrderData :=
  ⟨none, some ("2026-02-02"), some ("Wok Works"), [], some 321, exFname4⟩

def exFnameInv : String := "doc1.pdf"

def exTwoTotals : String := "Total ₹5\nTotal ₹100"

def topTotalLine : String := "Total ₹500"

def midTotalLine : String := "Total ₹100"

def lowTotalLine : String := "Total ₹15"

def exDateText : String := "Order Time: 31 January 2026, 12:52 PM"

def exLongDate : String := "31 January 2026, 12:52 PM"

def aposS : String := String.mk [Char.ofNat 39]

def pfChangs : String := "P.F. Chang" ++ aposS ++ "s"

def pfChangsFull : String := pfChangs ++ " (Sector 18)"

def exChangText : String := "Restaurant Name: " ++ pfChangsFull

def exFname2 : String := "doc2.pdf"

def itemHeaderLine : String := "Item Quantity Unit Price Total Price"

def delivLine : String := "Delivery Charge ₹30"

def paneerLine : String := "Paneer Tikka 2 ₹250 ₹500"

def exBadDateText : String := "Order Time: 32 January 2026, 12:52 PM"

def exRawDate : String := "32 January 2026, 12:52 PM"

def recUnparsed : OrderData :=
  ⟨some ("77"), some exRawDate, some ("A"), [], some 100, ("u.pdf")⟩

def recDated : OrderData :=
  ⟨some ("78"), some ("2025-12-31"), some ("B"), [], some 200, ("d.pdf")⟩

def exTotals : List ℚ := [500, 250]

def manyItemLine : String := "Masala Dosa 1 ₹120 ₹120"

def repItemLines : Nat → String
  | 0 => ""
  | n + 1 => manyItemLine ++ "\n" ++ repItemLines n

def manyItemsText : String := repItemLines 11

def exFname3 : String := "doc3.pdf"

/-! ## Supporting lemmas -/

/-- An accepted total always exceeds the plausibility threshold. -/
theorem acceptTotal_gt {g : Option (List Char)} {v : ℚ}
    (h : acceptTotal g = some v) : 20 < v := by
  unfold acceptTotal at h
  split at h
  · exact absurd h (by simp)
  · split at h
    · exact absurd h (by simp)
    · split at h
      · cases h; assumption
      · exact absurd h (by simp)

/-- A line-scan total always exceeds the threshold. -/
theorem lineTotal_gt {line : String} {v : ℚ}
    (h : lineTotal line = some v) : 20 < v := by
  simp only [lineTotal] at h
  split at h
  · exact absurd h (by simp)
  · split at h
    · next heq => cases h; exact acceptTotal_gt heq
    · split at h
      · next heq => cases h; exact acceptTotal_gt heq
      · exact acceptTotal_gt h

/-- A total found by the bottom-up scan always exceeds the threshold. -/
theorem findTotalLines_gt {lines : List String} {v : ℚ}
    (h : findTotalLines lines = some v) : 20 < v := by
  unfold findTotalLines at h
  obtain ⟨-, a, -, -, ha, -⟩ := List.findSome?_eq_some_iff.mp h
  exact lineTotal_gt ha

/-- A total found by the broad fallback search always exceeds the
threshold. -/
theorem broadTotal_gt {text : String} {v : ℚ}
    (h : broadTotal text = some v) : 20 < v := by
  unfold broadTotal at h
  split at h
  · next heq => cases h; exact acceptTotal_gt heq
  · split at h
    · next heq => cases h; exact acceptTotal_gt heq
    · exact acceptTotal_gt h

/-- The extracted total of `extract_order_data` always exceeds the
threshold. -/
theorem orderTotalField_gt {text : String} {v : ℚ}
    (h : orderTotalField text = some v) : 20 < v := by
  unfold orderTotalField at h
  split at h
  · next heq => cases h; exact findTotalLines_gt heq
  · exact broadTotal_gt h

/-- A record passing the completeness gate carries exactly the extracted
fields, and all three gated fields are truthy. -/
theorem mkOrderRecord_fields {fname : String} {oid dt rn : Option String}
    {items : List String} {tot : Option ℚ} {d : OrderData}
    (h : mkOrderRecord fname oid dt rn items tot = some d) :
    d.date = dt ∧ d.restaurant_name = rn ∧ d.total = tot ∧
      pyTruthyS dt = true ∧ pyTruthyS rn = true ∧ pyTruthyQ tot = true := by
  unfold mkOrderRecord at h
  split at h
  · next hc => cases h; simp_all
  · exact absurd h (by simp)

/-- A record returned by `extract_order_data` carries the extracted fields
and all three gated fields are truthy. -/
theorem extract_order_fields {text fname : String} {d : OrderData}
    (h : extract_order_data text fname = some d) :
    d.date = orderDateField text ∧ d.restaurant_name = orderRestField text ∧
      d.total = orderTotalField text ∧
      pyTruthyS d.date = true ∧ pyTruthyS d.restaurant_name = true ∧
      pyTruthyQ d.total = true := by
  unfold extract_order_data at h
  split at h
  · exact absurd h (by simp)
  · obtain ⟨h1, h2, h3, h4, h5, h6⟩ := mkOrderRecord_fields h
    exact ⟨h1, h2, h3, by rw [h1]; exact h4, by rw [h2]; exact h5, by rw [h3]; exact h6⟩

/-- Totality of the string comparison. -/
theorem lexLe_total (a b : List Char) : lexLe a b = true ∨ lexLe b a = true := by
  induction a generalizing b with
  | nil => left; rfl
  | cons x xs ih =>
    cases b with
    | nil => right; rfl
    | cons y ys =>
      by_cases hlt : x.toNat < y.toNat
      · left; simp [lexLe, hlt]
      · by_cases hgt : y.toNat < x.toNat
        · right; simp [lexLe, hgt]
        · rcases ih ys with h | h
          · left; simp [lexLe, hlt, hgt, h]
          · right; simp [lexLe, hlt, hgt, h]

/-- Transitivity of the string comparison. -/
theorem lexLe_trans {a b c : List Char}
    (h1 : lexLe a b = true) (h2 : lexLe b c = true) : lexLe a c = true := by
  induction a generalizing b c with
  | nil => rfl
  | cons x xs ih =>
    cases b with
    | nil => simp [lexLe] at h1
    | cons y ys =>
      cases c with
      | nil => simp [lexLe] at h2
      | cons z zs =>
        simp only [lexLe] at h1 h2 ⊢
        split at h1
        · next hxy =>
          split
          · rfl
          · next hzx =>
            split at h2
            · next hyz => omega
            · split at h2
              · simp at h2
              · next h1' h2' => omega
        · split at h1
          · simp at h1
          · next hxy hyx =>
            have hxy' : x.toNat = y.toNat := by omega
            split at h2
            · next hyz => simp [show x.toNat < z.toNat by omega]
            · split at h2
              · simp at h2
              · next hyz hzy =>
                have hyz' : y.toNat = z.toNat := by omega
                simp only [show ¬ x.toNat < z.toNat by omega, if_false,
                  show ¬ z.toNat < x.toNat by omega]
                exact ih h1 h2

/-- Only the empty string compares at most the empty string. -/
theorem lexLe_nil {a : List Char} (h : lexLe a [] = true) : a = [] := by
  cases a with
  | nil => rfl
  | cons x xs => simp [lexLe] at h

/-- Membership in an insertion. -/
theorem mem_insByDate {x z : OrderData} {l : List OrderData} :
    z ∈ insByDate x l ↔ z = x ∨ z ∈ l := by
  induction l with
  | nil => simp [insByDate]
  | cons y ys ih =>
    unfold insByDate
    split
    · simp only [List.mem_cons, ih]; tauto
    · simp only [List.mem_cons]

/-- Insertion preserves sortedness by the date key. -/
theorem pairwise_insByDate {x : OrderData} {l : List OrderData}
    (h : l.Pairwise (fun a b => dateKeyLe a b = true)) :
    (insByDate x l).Pairwise (fun a b => dateKeyLe a b = true) := by
  induction l with
  | nil => simp [insByDate]
  | cons y ys ih =>
    rw [List.pairwise_cons] at h
    obtain ⟨hy, hys⟩ := h
    unfold insByDate
    split
    · next hyx =>
      rw [List.pairwise_cons]
      constructor
      · intro z hz
        rcases mem_insByDate.mp hz with rfl | hz'
        · exact hyx
        · exact hy z hz'
      · exact ih hys
    · next hyx =>
      have hxy : dateKeyLe x y = true := by
        rcases lexLe_total (dateKey x).data (dateKey y).data with h | h
        · exact h
        · exact absurd h (by simpa [dateKeyLe] using hyx)
      rw [List.pairwise_cons]
      constructor
      · intro z hz
        rcases List.mem_cons.mp hz with rfl | hz'
        · exact hxy
        · exact lexLe_trans hxy (hy z hz')
      · exact List.pairwise_cons.mpr ⟨hy, hys⟩

/-- The date sort orders the records by their date keys. -/
theorem sortByDate_pairwise (l : List OrderData) :
    (sortByDate l).Pairwise (fun a b => dateKeyLe a b = true) := by
  unfold sortByDate
  suffices h : ∀ (acc : List OrderData),
      acc.Pairwise (fun a b => dateKeyLe a b = true) →
      (l.foldl (fun acc x => insByDate x acc) acc).Pairwise
        (fun a b => dateKeyLe a b = true) by
    exact h [] (by simp)
  induction l with
  | nil => intro acc hacc; simpa using hacc
  | cons x xs ih =>
    intro acc hacc
    exact ih _ (pairwise_insByDate hacc)

/-! ## The claims -/

/-- C1 (counterexample): on a text with no date, merchant or total pattern,
the sheet-oriented parser `extract_invoice_data` — one of the two parsers
the claim covers — returns a record with all three fields absent (empty
placeholders) instead of a failure signal. -/
theorem C1_counterexample :
    extract_invoice_data noPatternText exFnameInv = ⟨exFnameInv, "", "", "", []⟩ := by
  decide

/-- C1 (amended): the strict parser `extract_order_data` never returns a
record in which date, merchant name or total is absent — every returned
record has all three fields truthy. -/
theorem C1_amended_gate {text fname : String} {d : OrderData}
    (h : extract_order_data text fname = some d) :
    pyTruthyS d.date = true ∧ pyTruthyS d.restaurant_name = true ∧
      d.total.isSome = true := by
  obtain ⟨-, -, -, h4, h5, h6⟩ := extract_order_fields h
  refine ⟨h4, h5, ?_⟩
  cases htot : d.total with
  | none => rw [htot] at h6; simp [pyTruthyQ] at h6
  | some v => rfl

/-- C1 witness: a concrete successful extraction satisfying the gate. -/
theorem C1_witness :
    extract_order_data exOrderText exFname = some exOrderRec ∧
      pyTruthyS exOrderRec.date = true ∧
      pyTruthyS exOrderRec.restaurant_name = true ∧
      exOrderRec.total.isSome = true := by
  have h : extract_order_data exOrderText exFname = some exOrderRec := by decide
  exact ⟨h, C1_amended_gate h⟩

/-- C2 (counterexample): on a text whose first `Total` line carries 5 (at
most the threshold) and whose last carries 100, the sheet-oriented parser
`extract_invoice_data` — cited by the claim — selects the first occurrence
from the top, with no plausibility threshold. -/
theorem C2_counterexample :
    invAmountField exTwoTotals = ("₹5") ∧ ("₹5" : String) ≠ ("₹100") := by
  decide

/-- C2 (amended): in `extract_order_data`, the line scan for the total
selects the bottommost line whose accepted value exceeds 20; lines below it
on which no pattern yields an accepted value — including `Total` lines
whose value is 20 or less — are skipped and scanning continues upward. -/
theorem C2_amended_bottommost (pre post : List String) (line : String) (v : ℚ)
    (h1 : lineTotal line = some v) (h2 : ∀ l ∈ post, lineTotal l = none) :
    findTotalLines (pre ++ line :: post) = some v := by
  unfold findTotalLines
  have hpost : post.reverse.findSome? lineTotal = none := by
    rw [List.findSome?_eq_none_iff]
    intro x hx
    exact h2 x (List.mem_reverse.mp hx)
  rw [List.reverse_append, List.reverse_cons, List.findSome?_append,
    List.findSome?_append, hpost]
  simp [List.findSome?, h1]

/-- C2 witness: with `Total ₹500` above, `Total ₹100` in the middle and
`Total ₹15` at the bottom, the scan returns 100 — the bottommost accepted
line, not the topmost line and not the sub-threshold bottom line. -/
theorem C2_witness :
    lineTotal midTotalLine = some 100 ∧
      (∀ l ∈ [lowTotalLine], lineTotal l = none) ∧
      findTotalLines [topTotalLine, midTotalLine, lowTotalLine] = some 100 := by
  refine ⟨by decide, by decide, ?_⟩
  exact C2_amended_bottommost [topTotalLine] [lowTotalLine] midTotalLine 100
    (by decide) (by decide)

/-- C3: whenever the labeled long-form date pattern matches, the parser
stores its normalization: a successful full-month-name parse wins, else an
abbreviated-month-name parse, else the raw matched string verbatim — the
date is never discarded; `31 January 2026, 12:52 PM` normalizes to
`2026-01-31`. -/
theorem C3_date_normalization (text raw : String)
    (h : orderTimeSearch text = some raw) :
    orderDateField text = some (normalizeOrderDate raw) ∧
      (∀ y m d, strptimeDate monthsFull (removeCommasS raw) = some (y, m, d) →
        normalizeOrderDate raw = fmtDate y m d) ∧
      (strptimeDate monthsFull (removeCommasS raw) = none →
        ∀ y m d, strptimeDate monthsAbbr (removeCommasS raw) = some (y, m, d) →
          normalizeOrderDate raw = fmtDate y m d) ∧
      (strptimeDate monthsFull (removeCommasS raw) = none →
        strptimeDate monthsAbbr (removeCommasS raw) = none →
        normalizeOrderDate raw = raw) ∧
      normalizeOrderDate exLongDate = ("2026-01-31") := by
  refine ⟨?_, ?_, ?_, ?_, by decide⟩
  · unfold orderDateField
    rw [h]
    rfl
  · intro y m d hf
    simp only [normalizeOrderDate, hf]
  · intro hf y m d ha
    simp only [normalizeOrderDate, hf, ha]
  · intro hf ha
    simp only [normalizeOrderDate, hf, ha]

/-- C3 witness: the pattern matches the example text and the stored date is
the normalized form. -/
theorem C3_witness :
    orderTimeSearch exDateText = some exLongDate ∧
      orderDateField exDateText = some ("2026-01-31") := by
  have h : orderTimeSearch exDateText = some exLongDate := by decide
  have h2 := (C3_date_normalization exDateText exLongDate h).1
  rw [h2]
  exact ⟨h, by decide⟩

/-- C4 (counterexample): in `extract_order_data` — one of the two merchant
extractions the claim covers — the captured merchant is only stripped of
surrounding whitespace: `P.F. Chang's (Sector 18)` keeps its parenthetical
suffix. -/
theorem C4_counterexample :
    orderRestField exChangText = some pfChangsFull ∧ pfChangsFull ≠ pfChangs := by
  decide

/-- C4 (amended): in the sheet-oriented parser `extract_invoice_data`, the
extracted merchant name is truncated to at most 100 characters, and the
captured value `P.F. Chang's (Sector 18)` yields `P.F. Chang's` with the
parenthetical stripped. -/
theorem C4_amended_merchant :
    (∀ text fname, ((extract_invoice_data text fname).restaurant).length ≤ 100) ∧
      (extract_invoice_data exChangText exFname2).restaurant = pfChangs := by
  constructor
  · intro text fname
    show (invRestField text).length ≤ 100
    unfold invRestField
    split
    · simp only [String.length, List.length_take]
      omega
    · decide
  · decide

/-- C5: the table header line `Item Quantity Unit Price Total Price` leaves
the item-scanning section active (for any scan state), while any line
containing a trailer keyword (taxes, packaging, delivery, platform, round
off, terms, conditions) that is not itself a header line terminates it. -/
theorem C5_section_boundaries :
    (∀ st : ScanState, (scanStep st itemHeaderLine).itemsSection = true) ∧
      (∀ (st : ScanState) (line : String), st.itemsSection = true →
        lineStartsItems line = false → isHeaderSkip line = false →
        (isTrailerCharges line = true ∨ isTrailerTerms line = true) →
        (scanStep st line).itemsSection = false) := by
  constructor
  · intro st
    have hh : lineStartsItems itemHeaderLine = true := by decide
    simp [scanStep, hh]
  · intro st line h1 h2 h3 h4
    rcases h4 with h4 | h4
    · simp [scanStep, h1, h2, h3, h4]
    · by_cases hc : isTrailerCharges line = true
      · simp [scanStep, h1, h2, h3, hc]
      · simp [scanStep, h1, h2, h3, h4, hc]

/-- C5 witness: inside the section, the line `Delivery Charge ₹30`
terminates the scan, and the header line keeps it active. -/
theorem C5_witness :
    (scanStep ⟨true, []⟩ itemHeaderLine).itemsSection = true ∧
      (scanStep ⟨true, []⟩ delivLine).itemsSection = false :=
  ⟨C5_section_boundaries.1 ⟨true, []⟩,
    C5_section_boundaries.2 ⟨true, []⟩ delivLine (by decide) (by decide)
      (by decide) (Or.inl (by decide))⟩

/-- C6: inside the item section, a nonblank line matching the item shape
`<name> <quantity> <amount> <amount>` appends exactly one entry formatted
from the name, the quantity and the second (line-total) amount; in
particular `Paneer Tikka 2 ₹250 ₹500` captures groups
(`Paneer Tikka`, `2`, `250`, `500`) and the scan of the detected table
emits `Paneer Tikka (Qty: 2, ₹500)`. -/
theorem C6_item_entry :
    (∀ (st : ScanState) (line : String) (n q u t : String),
      st.itemsSection = true → lineStartsItems line = false →
      isHeaderSkip line = false → isTrailerCharges line = false →
      isTrailerTerms line = false → pyStrip line ≠ "" →
      itemMatchO line = some (n, q, u, t) →
      (scanStep st line).items = st.items ++ [fmtItemO n q t]) ∧
      itemMatchO paneerLine = some (("Paneer Tikka"), ("2"), ("250"), ("500")) ∧
      itemsScan [itemHeaderLine, paneerLine] = [("Paneer Tikka (Qty: 2, ₹500)")] := by
  refine ⟨?_, by decide, by decide⟩
  intro st line n q u t h1 h2 h3 h4 h5 h6 h7
  simp [scanStep, h1, h2, h3, h4, h5, h6, h7]

/-- C6 witness: the general step applied to the concrete line inside the
section. -/
theorem C6_witness :
    (scanStep ⟨true, []⟩ paneerLine).items =
      [] ++ [fmtItemO ("Paneer Tikka") ("2") ("500")] :=
  C6_item_entry.1 ⟨true, []⟩ paneerLine ("Paneer Tikka") ("2") ("250") ("500")
    rfl (by decide) (by decide) (by decide) (by decide) (by decide) (by decide)

/-- C7 (counterexample): a record whose date is the unparsed raw string
`32 January 2026, 12:52 PM` (stored verbatim by the date fallback) sorts
AFTER a record with the normalized date `2025-12-31`, so an unparsed-date
record does not come before all dated records. -/
theorem C7_counterexample :
    orderDateField exBadDateText = some exRawDate ∧
      recUnparsed.date = some exRawDate ∧
      recDated.date = some ("2025-12-31") ∧
      sortByDate [recUnparsed, recDated] = [recDated, recUnparsed] := by
  decide

/-- C7 (amended): sorting by the date key places every record with an
absent date (empty-string key) before every record with a nonempty date
key; records with an unparsed raw date string sort by that raw text and may
follow normalized dates. -/
theorem C7_amended_sort (l : List OrderData) :
    (sortByDate l).Pairwise (fun a b => dateKey b = "" → dateKey a = "") := by
  refine (sortByDate_pairwise l).imp ?_
  intro a b hle hb
  have hle' : lexLe (dateKey a).data (dateKey b).data = true := hle
  rw [hb] at hle'
  have hnil : (dateKey a).data = [] := lexLe_nil hle'
  cases hk : dateKey a with
  | mk d =>
    rw [hk] at hnil
    simp at hnil
    rw [hnil]

/-- C8: for a nonempty batch, the summary's total spend is the exact sum of
the totals and the average is total divided by count; the zero-count case
of the average expression is the defined value 0 (no division occurs). -/
theorem C8_summary (totals : List ℚ) (t : ℚ) :
    (totals ≠ [] →
      analyze_data totals =
        some ⟨totals.sum, totals.length, totals.sum / (totals.length : ℚ)⟩) ∧
      avgOrderValue t 0 = 0 := by
  constructor
  · intro h
    have hne : totals.isEmpty = false := by simpa [List.isEmpty_iff] using h
    have hpos : 0 < totals.length := List.length_pos.mpr h
    simp [analyze_data, avgOrderValue, hne, hpos]
  · simp [avgOrderValue]

/-- C8 witness: the summary of the concrete batch `[500, 250]`, and the
zero-count average. -/
theorem C8_witness :
    analyze_data exTotals =
      some ⟨exTotals.sum, exTotals.length, exTotals.sum / (exTotals.length : ℚ)⟩ ∧
      avgOrderValue 0 0 = 0 :=
  ⟨(C8_summary exTotals 0).1 (by decide), (C8_summary exTotals 0).2⟩

/-- C9: the record returned by `extract_invoice_data` carries at most 10
line items; on a text with 11 item-shaped lines, exactly 10 are kept. -/
theorem C9_items_bound :
    (∀ text fname, ((extract_invoice_data text fname).items).length ≤ 10) ∧
      ((extract_invoice_data manyItemsText exFname3).items).length = 10 := by
  constructor
  · intro text fname
    show (((splitNl text).filterMap invItemLine).take 10).length ≤ 10
    simp only [List.length_take]
    omega
  · decide

/-- C10: every record returned by `extract_order_data` carries a total
strictly greater than 20. -/
theorem C10_total_threshold {text fname : String} {d : OrderData}
    (h : extract_order_data text fname = some d) :
    ∃ v, d.total = some v ∧ 20 < v := by
  obtain ⟨-, -, h3, -, -, h6⟩ := extract_order_fields h
  cases htot : d.total with
  | none => rw [htot] at h6; simp [pyTruthyQ] at h6
  | some v =>
    refine ⟨v, rfl, ?_⟩
    rw [htot] at h3
    exact orderTotalField_gt h3.symm

/-- C10 witness: a concrete successful extraction whose total is 530. -/
theorem C10_witness :
    ∃ d, extract_order_data exOrderText2 exFname4 = some d ∧
      ∃ v, d.total = some v ∧ 20 < v := by
  have h : extract_order_data exOrderText2 exFname4 = some exOrderRec2 := by decide
  exact ⟨exOrderRec2, h, C10_total_threshold h⟩
